import Mathlib

/-!
# Verification of the `logruseq` Seq log-forwarding hook

Shallow embedding of `src/logruseq.go` (package `logruseq`): a logrus hook
that posts log events to a Seq ingestion endpoint over HTTP.

Pure parts (constructor, options, `Levels`, request construction, response
interpretation) are translated directly from the Go source.  The effectful
steps of `Fire` (formatter output, `http.NewRequest` success, the HTTP round
trip) are modelled by an explicit environment `FireEnv` recording each
effect's outcome; `FireRun` then follows the Go control flow of `Fire`
exactly.  The serialization performed by logrus's `JSONFormatter` and Go's
`time.RFC3339Nano` rendering live in external libraries, so those two pieces
are modelled from the spec (marked in their doc comments).
-/

/-- The seven logrus severity levels (`logrus.Level`). -/
inductive Level where
  | trace | debug | info | warn | error | fatal | panic
deriving DecidableEq, Repr

/-- `logrus.Level.String()`: the name logrus prints for each level
(note logrus renders `WarnLevel` as `"warning"`). -/
def levelString : Level → String
  | .trace => "trace"
  | .debug => "debug"
  | .info => "info"
  | .warn => "warning"
  | .error => "error"
  | .fatal => "fatal"
  | .panic => "panic"

/-- `SeqHook` (logruseq.go lines 14–18): endpoint URL, API key, level set. -/
structure SeqHook where
  endpoint : String
  apiKey : String
  levels : List Level
deriving DecidableEq, Repr

/-- `SeqHookOptions` (lines 111–114): the transient options builder value. -/
structure SeqHookOptions where
  apiKey : String
  levels : List Level
deriving DecidableEq, Repr

/-- The default options value built at the top of `NewSeqHook`
(lines 35–45): empty API key (Go zero value), all seven levels. -/
def defaultSeqHookOptions : SeqHookOptions :=
  { apiKey := ""
    levels := [Level.trace, Level.debug, Level.info, Level.warn,
               Level.error, Level.fatal, Level.panic] }

/-- `OptionAPIKey` (lines 117–121): configurator setting the API key.
Go mutates the options value through a pointer; here the mutation is
explicit state passing. -/
def OptionAPIKey (apiKey : String) : SeqHookOptions → SeqHookOptions :=
  fun opts => { opts with apiKey := apiKey }

/-- `OptionLevels` (lines 124–128): configurator replacing the level set. -/
def OptionLevels (levels : List Level) : SeqHookOptions → SeqHookOptions :=
  fun opts => { opts with levels := levels }

/-- `NewSeqHook` (lines 34–58): start from the default options, apply each
configurator in order, compute the endpoint by
`fmt.Sprintf("%v/api/events/raw", host)` (string concatenation for a string
host), and freeze the result. -/
def NewSeqHook (host : String) (opts : List (SeqHookOptions → SeqHookOptions)) :
    SeqHook :=
  let sho := opts.foldl (fun s o => o s) defaultSeqHookOptions
  { endpoint := host ++ "/api/events/raw"
    apiKey := sho.apiKey
    levels := sho.levels }

/-- `Levels` (lines 106–108): returns the hook's level slice. -/
def SeqHook.Levels (hook : SeqHook) : List Level :=
  hook.levels

/-! ## The HTTP request built by `Fire` -/

instance {ε α : Type} [DecidableEq ε] [DecidableEq α] : DecidableEq (Except ε α) :=
  fun x y =>
    match x, y with
    | .ok a, .ok b =>
      if h : a = b then .isTrue (by rw [h]) else .isFalse (by simp [h])
    | .error a, .error b =>
      if h : a = b then .isTrue (by rw [h]) else .isFalse (by simp [h])
    | .ok _, .error _ => .isFalse (fun h => Except.noConfusion h)
    | .error _, .ok _ => .isFalse (fun h => Except.noConfusion h)

/-- The parts of `http.Request` that `Fire` sets (method, URL, body,
headers).  HTTP header names are case-insensitive on the wire; keys are kept
exactly as the Go source spells them. -/
structure HttpRequest where
  method : String
  url : String
  body : String
  headers : List (String × String)
deriving DecidableEq, Repr

/-- Key lookup in a header (or serialized-record) association list. -/
def lookupKey (k : String) : List (String × String) → Option String
  | [] => none
  | p :: rest => if p.1 = k then some p.2 else lookupKey k rest

/-- `req.Header.Set`: replace any existing values for the key. -/
def headerSet (req : HttpRequest) (k v : String) : HttpRequest :=
  { req with headers := (k, v) :: req.headers.filter (fun p => p.1 ≠ k) }

/-- `req.Header.Add`: append a value for the key. -/
def headerAdd (req : HttpRequest) (k v : String) : HttpRequest :=
  { req with headers := req.headers ++ [(k, v)] }

/-- Lines 76–85 of `Fire`: build the POST request to the hook's endpoint,
set `Content-Type`, and add `X-Seq-ApiKey` only when the API key is
non-empty. -/
def buildRequest (hook : SeqHook) (data : String) : HttpRequest :=
  let req : HttpRequest :=
    { method := "POST", url := hook.endpoint, body := data, headers := [] }
  let req := headerSet req "Content-Type" "application/vnd.serilog.clef"
  if hook.apiKey ≠ "" then headerAdd req "X-Seq-ApiKey" hook.apiKey else req

/-! ## The control flow of `Fire` -/

/-- The Go `error` values `Fire` can return: the three pass-through errors
(from `formatter.Format`, `http.NewRequest`, `http.DefaultClient.Do`), the
pass-through body-read error from `ioutil.ReadAll`, and the
`fmt.Errorf("error creating seq event: %v", string(data))` value built at
line 99. -/
inductive GoError where
  | formatErr (e : String)
  | requestErr (e : String)
  | transportErr (e : String)
  | readErr (e : String)
  | errorf (msg : String)
deriving DecidableEq, Repr

/-- The message text of a returned Go error value. -/
def GoError.message : GoError → String
  | .formatErr e => e
  | .requestErr e => e
  | .transportErr e => e
  | .readErr e => e
  | .errorf m => m

/-- Outcome of `http.DefaultClient.Do`: either a transport failure, or a
response with a status code and the outcome of reading its body
(`ioutil.ReadAll(resp.Body)`). -/
inductive HttpOutcome where
  | transportError (e : String)
  | response (status : Nat) (bodyRead : Except String String)
deriving DecidableEq, Repr

/-- Environment of one `Fire` call: the outcome of each effectful step.
`formatResult` is what `formatter.Format(entry)` returned,
`newRequestResult` whether `http.NewRequest` succeeded, `httpOutcome` the
round trip's outcome. -/
structure FireEnv where
  formatResult : Except String String
  newRequestResult : Except String Unit
  httpOutcome : HttpOutcome
deriving DecidableEq, Repr

/-- Observable trace of one `Fire` call: the returned error (if any), the
request handed to `http.DefaultClient.Do` (if reached), and the hook's
state after the call (`Fire` contains no assignment to any hook field, so
the post-state is the receiver unchanged). -/
structure FireTrace where
  result : Except GoError Unit
  sent : Option HttpRequest
  hookAfter : SeqHook
deriving DecidableEq, Repr

/-- `Fire` (lines 61–103), with its effect outcomes supplied by `env`:
return the formatter error if formatting failed; return the
`http.NewRequest` error if request construction failed; otherwise build the
request (Content-Type, optional X-Seq-ApiKey) and dispatch it; return the
transport error on round-trip failure; on a non-201 status read the body,
returning the read error if that failed and otherwise
`fmt.Errorf("error creating seq event: %v", body)`; on 201 return nil. -/
def FireRun (hook : SeqHook) (env : FireEnv) : FireTrace :=
  match env.formatResult with
  | .error e => ⟨.error (.formatErr e), none, hook⟩
  | .ok data =>
    match env.newRequestResult with
    | .error e => ⟨.error (.requestErr e), none, hook⟩
    | .ok () =>
      let req := buildRequest hook data
      match env.httpOutcome with
      | .transportError e => ⟨.error (.transportErr e), some req, hook⟩
      | .response status bodyRead =>
        if status ≠ 201 then
          match bodyRead with
          | .error e => ⟨.error (.readErr e), some req, hook⟩
          | .ok body =>
            ⟨.error (.errorf ("error creating seq event: " ++ body)), some req, hook⟩
        else
          ⟨.ok (), some req, hook⟩

/-- The error value returned by `Fire` (the function's Go return value). -/
def SeqHook.Fire (hook : SeqHook) (env : FireEnv) : Except GoError Unit :=
  (FireRun hook env).result

/-! ## Serialization (logrus `JSONFormatter` + `time.RFC3339Nano`)

The formatter configured at lines 62–69 of `Fire` is logrus's
`JSONFormatter` with `TimestampFormat: time.RFC3339Nano` and a `FieldMap`
renaming the message key to `@mt`, the level key to `@l` and the time key to
`@t`.  Both the formatter and the time layout live outside this repository,
so they are modelled from the spec below. -/

/-- A wall-clock timestamp broken into calendar components, with the UTC
offset in minutes (`0` means UTC, rendered `Z`). -/
structure Timestamp where
  year : Nat
  month : Nat
  day : Nat
  hour : Nat
  minute : Nat
  second : Nat
  nano : Nat
  tzOffsetMinutes : Int
deriving DecidableEq, Repr

/-- Left-pad the decimal rendering of `n` with zeros to width `w`. -/
def padZeros (w n : Nat) : String :=
  let s := toString n
  String.mk (List.replicate (w - s.length) '0') ++ s

/-- Fractional-second part of Go's `RFC3339Nano` layout: nanoseconds padded
to nine digits, trailing zeros removed, empty when the fraction is zero. -/
def nanoFraction (nano : Nat) : String :=
  let digits := (padZeros 9 nano).toList
  let trimmed := (digits.reverse.dropWhile (fun c => c = '0')).reverse
  if trimmed.isEmpty then "" else "." ++ String.mk trimmed

/-- Timezone suffix of the RFC3339 layout: `Z` for UTC, otherwise a signed
`hh:mm` offset. -/
def tzSuffix (offsetMinutes : Int) : String :=
  if offsetMinutes = 0 then "Z"
  else
    let sign := if offsetMinutes < 0 then "-" else "+"
    let m := offsetMinutes.natAbs
    sign ++ padZeros 2 (m / 60) ++ ":" ++ padZeros 2 (m % 60)

/-- Modelled from the spec: Go's `time.RFC3339Nano` rendering
(`2006-01-02T15:04:05.999999999Z07:00`) used as the formatter's
`TimestampFormat` — nanosecond precision with trailing zeros trimmed,
timezone-aware.  The `time` package is external to the repository. -/
def formatRFC3339Nano (t : Timestamp) : String :=
  padZeros 4 t.year ++ "-" ++ padZeros 2 t.month ++ "-" ++ padZeros 2 t.day
    ++ "T" ++ padZeros 2 t.hour ++ ":" ++ padZeros 2 t.minute ++ ":"
    ++ padZeros 2 t.second ++ nanoFraction t.nano ++ tzSuffix t.tzOffsetMinutes

/-- `logrus.Entry` as consumed by `Fire`: message, level, timestamp, and the
structured data fields, each a field name paired with its JSON-encoded
value.  Field names are distinct in Go (`logrus.Fields` is a map). -/
structure Entry where
  message : String
  level : Level
  time : Timestamp
  fields : List (String × String)
deriving DecidableEq, Repr

/-- Modelled from the spec: the serialized record produced by logrus's
`JSONFormatter` (external to the repository) under the `FieldMap` configured
at lines 62–69 of `Fire` — one JSON object with the timestamp under `@t`
(RFC3339Nano), the level name under `@l`, the message under `@mt`, and every
structured field under its original name.  The record is represented as its
key/value association list. -/
def formatEntry (e : Entry) : List (String × String) :=
  [("@t", formatRFC3339Nano e.time),
   ("@l", levelString e.level),
   ("@mt", e.message)] ++ e.fields

/-- Whether `pat` occurs as a contiguous substring of `s`. -/
def strContainsSub (s pat : String) : Bool :=
  s.toList.tails.any (fun t => pat.toList.isPrefixOf t)

/-- A sample effect environment in which every step of `Fire` succeeds and
the endpoint answers 201 with an empty body. -/
def sampleEnv : FireEnv :=
  { formatResult := .ok "x"
    newRequestResult := .ok ()
    httpOutcome := .response 201 (.ok "") }

/-- A sample log entry used to instantiate the serialization theorem. -/
def sampleEntry : Entry :=
  { message := "User logged in"
    level := Level.info
    time := { year := 2021, month := 1, day := 2, hour := 3, minute := 4,
              second := 5, nano := 123000000, tzOffsetMinutes := 0 }
    fields := [("User", "alice"), ("Attempt", "1")] }

/-! ## Helper lemmas -/

/-- Looking a key up past a pair with a different key skips the pair. -/
theorem lookupKey_cons_ne (k : String) (p : String × String)
    (l : List (String × String)) (h : p.1 ≠ k) :
    lookupKey k (p :: l) = lookupKey k l := by
  simp [lookupKey, h]

/-- In an association list with pairwise-distinct keys, every member pair is
found under its key. -/
theorem lookupKey_of_mem (l : List (String × String)) (p : String × String)
    (hmem : p ∈ l) (hnodup : (l.map Prod.fst).Nodup) :
    lookupKey p.1 l = some p.2 := by
  induction l with
  | nil => cases hmem
  | cons q rest ih =>
    rcases List.mem_cons.mp hmem with rfl | hmem
    · simp [lookupKey]
    · have hq : q.1 ≠ p.1 := by
        intro he
        exact (List.nodup_cons.mp hnodup).1
          (he ▸ List.mem_map_of_mem Prod.fst hmem)
      rw [lookupKey_cons_ne _ _ _ hq]
      exact ih hmem (List.nodup_cons.mp hnodup).2

/-- The request built by `Fire` carries `X-Seq-ApiKey` exactly when the
hook's API key is non-empty, and then with exactly that value. -/
theorem lookupKey_buildRequest_apiKey (hook : SeqHook) (data : String) :
    lookupKey "X-Seq-ApiKey" (buildRequest hook data).headers =
      if hook.apiKey = "" then none else some hook.apiKey := by
  by_cases h : hook.apiKey = ""
  · simp [buildRequest, headerSet, headerAdd, lookupKey, h]
  · simp [buildRequest, headerSet, headerAdd, lookupKey, h]

/-- If `Fire` handed a request to the HTTP client, formatting succeeded and
the request is exactly `buildRequest` of the hook and the formatted data. -/
theorem fireRun_sent (hook : SeqHook) (env : FireEnv) (req : HttpRequest)
    (h : (FireRun hook env).sent = some req) :
    ∃ d, env.formatResult = .ok d ∧ req = buildRequest hook d := by
  obtain ⟨fr, nr, ho⟩ := env
  cases fr with
  | error e => exact absurd h (by simp [FireRun])
  | ok d =>
    cases nr with
    | error e => exact absurd h (by simp [FireRun])
    | ok u =>
      cases u
      refine ⟨d, rfl, ?_⟩
      cases ho with
      | transportError e =>
        simp [FireRun] at h
        exact h.symm
      | response status br =>
        by_cases hs : status = 201
        · subst hs
          simp [FireRun] at h
          exact h.symm
        · cases br with
          | error e =>
            simp [FireRun, hs] at h
            exact h.symm
          | ok body =>
            simp [FireRun, hs] at h
            exact h.symm

/-! ## Claim theorems -/

/-- C4: a hook constructed with no level option reports exactly the seven
standard severities Trace, Debug, Info, Warn, Error, Fatal, Panic. -/
theorem C4_default_levels (host : String) :
    (NewSeqHook host []).Levels =
      [Level.trace, Level.debug, Level.info, Level.warn,
       Level.error, Level.fatal, Level.panic] :=
  rfl

/-- C5: for every severity set `S` passed via `OptionLevels`, `Levels` of
the constructed hook returns exactly `S` — nothing added, removed, or merged
with the default set. -/
theorem C5_option_levels_exact (host : String) (S : List Level) :
    (NewSeqHook host [OptionLevels S]).Levels = S :=
  rfl

/-- C7: for every host base, the constructed hook's destination URL is the
host base concatenated with `/api/events/raw`; in particular for
`http://localhost:5341` it is `http://localhost:5341/api/events/raw`. -/
theorem C7_endpoint_concat (host : String)
    (opts : List (SeqHookOptions → SeqHookOptions)) :
    (NewSeqHook host opts).endpoint = host ++ "/api/events/raw" ∧
    (NewSeqHook "http://localhost:5341" []).endpoint =
      "http://localhost:5341/api/events/raw" :=
  ⟨rfl, rfl⟩

/-- C8: configurators are applied in sequence with last-write-wins per
field; `OptionLevels S` and `OptionAPIKey k` commute, and the combined
result has level set exactly `S` and API key exactly `k`. -/
theorem C8_configurator_order (host k k1 k2 : String) (S S1 S2 : List Level) :
    NewSeqHook host [OptionLevels S, OptionAPIKey k] =
      NewSeqHook host [OptionAPIKey k, OptionLevels S] ∧
    (NewSeqHook host [OptionLevels S, OptionAPIKey k]).Levels = S ∧
    (NewSeqHook host [OptionLevels S, OptionAPIKey k]).apiKey = k ∧
    (NewSeqHook host [OptionAPIKey k1, OptionAPIKey k2]).apiKey = k2 ∧
    (NewSeqHook host [OptionLevels S1, OptionLevels S2]).Levels = S2 :=
  ⟨rfl, rfl, rfl, rfl, rfl⟩

/-- C9: whatever the outcome of the call, `Fire` leaves the hook's state —
endpoint, API key and level set — unchanged. -/
theorem C9_fire_preserves_hook (hook : SeqHook) (env : FireEnv) :
    (FireRun hook env).hookAfter = hook := by
  obtain ⟨fr, nr, ho⟩ := env
  cases fr with
  | error e => rfl
  | ok d =>
    cases nr with
    | error e => rfl
    | ok u =>
      cases u
      cases ho with
      | transportError e => rfl
      | response status br =>
        by_cases hs : status = 201
        · subst hs
          simp [FireRun]
        · cases br <;> simp [FireRun, hs]

/-- C2: `Fire` returns nil exactly when formatting, request construction
and the round trip all succeed and the status is exactly 201; every failure
is returned as an error, never swallowed; in particular a 201 response with
an empty body yields success. -/
theorem C2_success_iff (hook : SeqHook) (env : FireEnv) :
    (hook.Fire env = .ok () ↔
      (∃ d, env.formatResult = .ok d) ∧ env.newRequestResult = .ok () ∧
      ∃ br, env.httpOutcome = .response 201 br) ∧
    hook.Fire { formatResult := .ok "x", newRequestResult := .ok (),
                httpOutcome := .response 201 (.ok "") } = .ok () := by
  refine ⟨?_, rfl⟩
  obtain ⟨fr, nr, ho⟩ := env
  cases fr with
  | error e => simp [SeqHook.Fire, FireRun]
  | ok d =>
    cases nr with
    | error e => simp [SeqHook.Fire, FireRun]
    | ok u =>
      cases u
      cases ho with
      | transportError e => simp [SeqHook.Fire, FireRun]
      | response status br =>
        by_cases hs : status = 201
        · subst hs
          simp [SeqHook.Fire, FireRun]
        · cases br <;> simp [SeqHook.Fire, FireRun, hs]

/-- C6: a hook constructed with a non-empty API key sends every request with
header `X-Seq-ApiKey` carrying exactly that key; a hook constructed with no
key option sends requests without that header. -/
theorem C6_api_key_header (host key : String) (env1 env2 : FireEnv)
    (req1 req2 : HttpRequest) (hk : key ≠ "")
    (h1 : (FireRun (NewSeqHook host [OptionAPIKey key]) env1).sent = some req1)
    (h2 : (FireRun (NewSeqHook host []) env2).sent = some req2) :
    lookupKey "X-Seq-ApiKey" req1.headers = some key ∧
    lookupKey "X-Seq-ApiKey" req2.headers = none := by
  obtain ⟨d1, -, rfl⟩ := fireRun_sent _ _ _ h1
  obtain ⟨d2, -, rfl⟩ := fireRun_sent _ _ _ h2
  rw [lookupKey_buildRequest_apiKey, lookupKey_buildRequest_apiKey]
  constructor
  · simp [NewSeqHook, OptionAPIKey, defaultSeqHookOptions, hk]
  · simp [NewSeqHook, defaultSeqHookOptions]

/-- C6 witness: a delivery with key `"k1"` carries the header with value
`"k1"`, and a delivery from a key-less hook carries no such header. -/
theorem C6_api_key_header_witness :
    lookupKey "X-Seq-ApiKey"
      (buildRequest (NewSeqHook "http://localhost:5341" [OptionAPIKey "k1"])
        "x").headers = some "k1" ∧
    lookupKey "X-Seq-ApiKey"
      (buildRequest (NewSeqHook "http://localhost:5341" []) "x").headers =
      none :=
  C6_api_key_header "http://localhost:5341" "k1" sampleEnv sampleEnv _ _
    (by decide) rfl rfl

/-- C10: constructing with `OptionAPIKey ""` yields a hook equal to one
constructed with no option at all, and its deliveries carry no
`X-Seq-ApiKey` header: an empty credential is indistinguishable from no
credential. -/
theorem C10_empty_key_indistinguishable (host : String) (env : FireEnv)
    (req : HttpRequest)
    (h : (FireRun (NewSeqHook host [OptionAPIKey ""]) env).sent = some req) :
    NewSeqHook host [OptionAPIKey ""] = NewSeqHook host [] ∧
    lookupKey "X-Seq-ApiKey" req.headers = none := by
  refine ⟨rfl, ?_⟩
  obtain ⟨d, -, rfl⟩ := fireRun_sent _ _ _ h
  rw [lookupKey_buildRequest_apiKey]
  simp [NewSeqHook, OptionAPIKey, defaultSeqHookOptions]

/-- C10 witness: at a concrete delivery of a hook configured with the empty
key, the hook equals the unconfigured hook and the header is absent. -/
theorem C10_empty_key_indistinguishable_witness :
    NewSeqHook "http://localhost:5341" [OptionAPIKey ""] =
      NewSeqHook "http://localhost:5341" [] ∧
    lookupKey "X-Seq-ApiKey"
      (buildRequest (NewSeqHook "http://localhost:5341" [OptionAPIKey ""])
        "x").headers = none :=
  C10_empty_key_indistinguishable "http://localhost:5341" sampleEnv _ rfl

/-- C3: the serialized record maps the message to `@mt`, the level name to
`@l`, the timestamp rendered RFC3339Nano to `@t`, and every structured
field (field names are map keys in Go, hence distinct, and distinct from
the reserved keys) to its own top-level key under its original name. -/
theorem C3_serialized_record (e : Entry) (p : String × String)
    (hp : p ∈ e.fields)
    (hnames : ∀ q ∈ e.fields, q.1 ≠ "@t" ∧ q.1 ≠ "@l" ∧ q.1 ≠ "@mt")
    (hnodup : (e.fields.map Prod.fst).Nodup) :
    lookupKey "@mt" (formatEntry e) = some e.message ∧
    lookupKey "@l" (formatEntry e) = some (levelString e.level) ∧
    lookupKey "@t" (formatEntry e) = some (formatRFC3339Nano e.time) ∧
    lookupKey p.1 (formatEntry e) = some p.2 := by
  obtain ⟨h1, h2, h3⟩ := hnames p hp
  refine ⟨rfl, rfl, rfl, ?_⟩
  show lookupKey p.1
      (("@t", formatRFC3339Nano e.time) :: ("@l", levelString e.level) ::
        ("@mt", e.message) :: e.fields) = some p.2
  rw [lookupKey_cons_ne _ _ _ (Ne.symm h1), lookupKey_cons_ne _ _ _ (Ne.symm h2),
      lookupKey_cons_ne _ _ _ (Ne.symm h3)]
  exact lookupKey_of_mem e.fields p hp hnodup

/-- C3 witness: the sample entry serializes with its message under `@mt`,
level name under `@l`, RFC3339Nano timestamp under `@t`, and the field
`User` under its own name. -/
theorem C3_serialized_record_witness :
    lookupKey "@mt" (formatEntry sampleEntry) = some "User logged in" ∧
    lookupKey "@l" (formatEntry sampleEntry) = some "info" ∧
    lookupKey "@t" (formatEntry sampleEntry) = some "2021-01-02T03:04:05.123Z" ∧
    lookupKey "User" (formatEntry sampleEntry) = some "alice" :=
  C3_serialized_record sampleEntry ("User", "alice") (by decide) (by decide)
    (by decide)

/-- C1 counterexample: for a 500 response with readable body
`"internal error"`, `Fire` returns exactly
`fmt.Errorf("error creating seq event: internal error")` — an error whose
message contains the raw body text but does not contain the HTTP status
500, contradicting the claim that the error carries both. -/
theorem C1_counterexample :
    SeqHook.Fire (NewSeqHook "http://localhost:5341" [])
      { formatResult := .ok "x", newRequestResult := .ok (),
        httpOutcome := .response 500 (.ok "internal error") } =
      .error (.errorf "error creating seq event: internal error") ∧
    strContainsSub "error creating seq event: internal error"
      "internal error" = true ∧
    strContainsSub "error creating seq event: internal error" "500" = false :=
  ⟨rfl, by decide, by decide⟩

/-- C1 amended: for every delivery in which the endpoint responds with a
non-201 status and the response body is readable, `Fire` returns the error
`fmt.Errorf("error creating seq event: %v", body)`, which carries the raw
response body text but not the response's HTTP status. -/
theorem C1_amended_server_rejection (hook : SeqHook) (d body : String)
    (status : Nat) (hs : status ≠ 201) :
    hook.Fire { formatResult := .ok d, newRequestResult := .ok (),
                httpOutcome := .response status (.ok body) } =
      .error (.errorf ("error creating seq event: " ++ body)) := by
  simp [SeqHook.Fire, FireRun, hs]

/-- C1 amended witness: at status 500 with body `"internal error"` the
returned error is `fmt.Errorf("error creating seq event: internal error")`. -/
theorem C1_amended_server_rejection_witness :
    SeqHook.Fire (NewSeqHook "http://localhost:5341" [])
      { formatResult := .ok "x", newRequestResult := .ok (),
        httpOutcome := .response 500 (.ok "internal error") } =
      .error (.errorf "error creating seq event: internal error") :=
  C1_amended_server_rejection (NewSeqHook "http://localhost:5341" []) "x"
    "internal error" 500 (by decide)
